import Mathlib

/-!
Verification of the nurse-scheduling pipeline.

Shallow embedding of the repository:
  * `utils/constants.py`      — `NURSES`, `SHIFT_TYPES`, `SHIFT_CODE`, `NUM_DAYS`.
  * `initial_assignment.py`   — `build_hard_constraints` (blocks H1–H12) is embedded
    as one Bool-valued satisfaction predicate per block over an assignment of the
    decision-variable cube `x : Nat → Nat → Nat → Bool`;
    `solve_initial_model`'s post-solve result construction is embedded as
    `initialResultCell`.
  * `refine_schedule.py`      — `add_soft_constraints`' penalty list and weighted
    objective are embedded as `softPenalties` / `weightedPenalties`;
    `optimize_final_schedule`'s post-solve result construction is embedded as
    `finalResultCell`.
  * `utils/validator.py`      — `validate_constraints` is embedded directly.

Loops `for n in range(...)`, `for d in range(1, num_days + 1)` become bounded
`List.all` / `List.map` over `List.range` and `daysList`; `for n, nurse in
enumerate(...)` becomes an index range with `List.getD` access; the CP-SAT
constraints added by `model.Add(...)` become the corresponding Bool tests on the
assignment, conjoined in construction order.
-/

namespace NurseScheduling

/-- Roster of nurses, from `utils/constants.py` `NURSES`. -/
def NURSES : List String :=
  ["樋渡", "中山", "三好", "川原田", "板川", "友枝", "奥平",
   "前野", "森園", "御書", "久保", "小嶋", "久保（千）", "田浦"]

/-- Shift code enumeration, from `utils/constants.py` `SHIFT_TYPES`. -/
def SHIFT_TYPES : List String :=
  ["休", "夜", "早", "残", "〇", "1", "2", "3", "4", "×", "/訪", "CT",
   "早日", "残日", "1/", "2/", "3/", "4/", "/休", "休/", "F", "2・CT"]

/-- `SHIFT_CODE = {code: idx for idx, code in enumerate(SHIFT_TYPES)}`:
since `SHIFT_TYPES` has no duplicates, the dict lookup is the first index of the
code in `SHIFT_TYPES`.  Callers in the source only look up codes they have
guarded to be present. -/
def SHIFT_CODE (c : String) : Nat := SHIFT_TYPES.indexOf c

/-- Number of days in the period, from `utils/constants.py` `NUM_DAYS`. -/
def NUM_DAYS : Nat := 31

/-- `weekdays = ["月", "火", "水", "木", "金", "土", "日"]` used by H3/H4/H11. -/
def WEEKDAYS : List String := ["月", "火", "水", "木", "金", "土", "日"]

/-- `weekdays[(d - 1) % 7]`. -/
def weekdayOf (d : Nat) : String := WEEKDAYS.getD ((d - 1) % 7) ""

/-- The value of a CP-SAT Bool variable as the 0/1 integer it denotes in the
linear constraints. -/
def b2n (b : Bool) : Nat := if b then 1 else 0

/-- `range(1, numDays + 1)`: the day indices `1, …, numDays`. -/
def daysList (numDays : Nat) : List Nat := (List.range numDays).map (· + 1)

/-- The request table (`requests` DataFrame after `set_index("nurse")`):
row-membership (`nurse in requests.index`), column-membership
(`f"day_{d}" in requests.columns`), and the cell value
(`requests.loc[nurse, col]`, `none` standing for NaN). -/
structure ReqTable where
  hasNurse : String → Bool
  hasDay : Nat → Bool
  value : String → Nat → Option String

/-- The `data` dict passed to `build_hard_constraints` / `add_soft_constraints`. -/
structure ScheduleData where
  nurses : List String
  numDays : Nat
  shiftTypes : List String
  requests : Option ReqTable := none
  prevMonthNight : List String := []
  nightShiftPreferred : List String := []
  initialSolution : Option (String → Nat → String) := none

/-- `night_idx = SHIFT_CODE["夜"]`. -/
def nightIdx : Nat := SHIFT_CODE "夜"

/-- `off_idx = SHIFT_CODE["×"]`. -/
def offIdx : Nat := SHIFT_CODE "×"

/-- `rest_idx = SHIFT_CODE.get("休")` (present, hence its index). -/
def restIdx : Nat := SHIFT_CODE "休"

/-- `early_idx = SHIFT_CODE.get("早日") if "早日" in SHIFT_CODE else
data["shift_types"].index("早日")`. -/
def earlyIdxOf (data : ScheduleData) : Nat :=
  if SHIFT_TYPES.contains "早日" then SHIFT_CODE "早日"
  else data.shiftTypes.indexOf "早日"

/-- `late_idx`, analogously. -/
def lateIdxOf (data : ScheduleData) : Nat :=
  if SHIFT_TYPES.contains "残日" then SHIFT_CODE "残日"
  else data.shiftTypes.indexOf "残日"

/-- `two_slash_idx = SHIFT_CODE.get("2/") if "2/" in SHIFT_CODE else
data["shift_types"].index("2/")`. -/
def twoSlashIdxOf (data : ScheduleData) : Nat :=
  if SHIFT_TYPES.contains "2/" then SHIFT_CODE "2/"
  else data.shiftTypes.indexOf "2/"

/-- `sum(x[(n, d, s)] for s in range(num_shifts))`. -/
def shiftSum (data : ScheduleData) (x : Nat → Nat → Nat → Bool) (n d : Nat) : Nat :=
  ((List.range data.shiftTypes.length).map fun s => b2n (x n d s)).sum

/-- `sum(x[(n, d, idx)] for n in range(num_nurses))`. -/
def nurseSum (data : ScheduleData) (x : Nat → Nat → Nat → Bool) (d idx : Nat) : Nat :=
  ((List.range data.nurses.length).map fun n => b2n (x n d idx)).sum

/-- `sum(x[(n, d, rest_idx)] for d in range(1, num_days + 1))` (H8's left side). -/
def restSum (data : ScheduleData) (x : Nat → Nat → Nat → Bool) (n : Nat) : Nat :=
  ((daysList data.numDays).map fun d => b2n (x n d restIdx)).sum

/-- H1: each nurse has exactly one shift per day. -/
def H1check (data : ScheduleData) (x : Nat → Nat → Nat → Bool) : Bool :=
  (List.range data.nurses.length).all fun n =>
    (daysList data.numDays).all fun d => shiftSum data x n d == 1

/-- `outpatient_shifts = [SHIFT_CODE.get(code) for code in
["1", "2", "3", "4", "CT", "F", "2/"] if code in SHIFT_CODE]`. -/
def outpatientShifts : List Nat :=
  (["1", "2", "3", "4", "CT", "F", "2/"].filter fun c => SHIFT_TYPES.contains c).map SHIFT_CODE

/-- H2: nurse-specific restrictions (板川/三好 never night; 御書 never night,
outpatient, early-rotation or late-rotation).  The Python guards
`... is not None` correspond to the roster-membership tests. -/
def H2check (data : ScheduleData) (x : Nat → Nat → Nat → Bool) : Bool :=
  (daysList data.numDays).all fun d =>
    (if data.nurses.contains "板川" then
        x (data.nurses.indexOf "板川") d nightIdx == false
     else true) &&
    (if data.nurses.contains "三好" then
        x (data.nurses.indexOf "三好") d nightIdx == false
     else true) &&
    (if data.nurses.contains "御書" then
        let g := data.nurses.indexOf "御書"
        x g d nightIdx == false &&
        (outpatientShifts.all fun s => x g d s == false) &&
        x g d (earlyIdxOf data) == false &&
        x g d (lateIdxOf data) == false
     else true)

/-- Codes allowed on fully-closed weekdays (木/日) in H3. -/
def allowedClosed : List String := ["夜", "早日", "残日", "休", "×"]

/-- Codes banned on the half-day weekday (土) in H3. -/
def bannedSaturday : List String := ["1", "2", "3", "4", "CT", "F", "2/", "〇"]

/-- H3: clinic holidays — on 木/日 only `allowedClosed` codes may be assigned,
on 土 the `bannedSaturday` codes are forced to 0. -/
def H3check (data : ScheduleData) (x : Nat → Nat → Nat → Bool) : Bool :=
  (daysList data.numDays).all fun d =>
    let wd := weekdayOf d
    if wd == "木" || wd == "日" then
      (List.range data.shiftTypes.length).all fun s =>
        if allowedClosed.contains (data.shiftTypes.getD s "") then true
        else (List.range data.nurses.length).all fun n => x n d s == false
    else if wd == "土" then
      (List.range data.shiftTypes.length).all fun s =>
        if bannedSaturday.contains (data.shiftTypes.getD s "") then
          (List.range data.nurses.length).all fun n => x n d s == false
        else true
    else true

/-- Outpatient code set of H4 (iterated as a set in the source; sums are
order-independent). -/
def outpatientCodes : List String := ["1", "2", "3", "4", "CT", "F", "2/"]

/-- Ward code set of H4. -/
def wardCodes : List String := ["〇"]

/-- `sum(x[(n, d, SHIFT_CODE[code])] for n ... for code in codes if code in SHIFT_CODE)`. -/
def codeSetCount (data : ScheduleData) (x : Nat → Nat → Nat → Bool)
    (d : Nat) (codes : List String) : Nat :=
  ((List.range data.nurses.length).map fun n =>
    ((codes.filter fun c => SHIFT_TYPES.contains c).map fun c =>
      b2n (x n d (SHIFT_CODE c))).sum).sum

/-- H4: outpatient/ward allocation — on 月/火/水/金 at least 4 outpatient and 3
ward assignments; on 木/日 exactly one early- and one late-rotation; on 土 at
least one `2/`. -/
def H4check (data : ScheduleData) (x : Nat → Nat → Nat → Bool) : Bool :=
  (daysList data.numDays).all fun d =>
    let wd := weekdayOf d
    if wd == "月" || wd == "火" || wd == "水" || wd == "金" then
      decide (4 ≤ codeSetCount data x d outpatientCodes) &&
      decide (3 ≤ codeSetCount data x d wardCodes)
    else if wd == "木" || wd == "日" then
      (nurseSum data x d (earlyIdxOf data) == 1) &&
      (nurseSum data x d (lateIdxOf data) == 1)
    else if wd == "土" then
      decide (1 ≤ nurseSum data x d (twoSlashIdxOf data))
    else true

/-- H5: exactly one night shift per day. -/
def H5check (data : ScheduleData) (x : Nat → Nat → Nat → Bool) : Bool :=
  (daysList data.numDays).all fun d => nurseSum data x d nightIdx == 1

/-- H6: `x[(n, d, night_idx)] <= x[(n, d + 1, off_idx)]` for `d in
range(1, num_days)`. -/
def H6check (data : ScheduleData) (x : Nat → Nat → Nat → Bool) : Bool :=
  (List.range data.nurses.length).all fun n =>
    ((List.range (data.numDays - 1)).map (· + 1)).all fun d =>
      decide (b2n (x n d nightIdx) ≤ b2n (x n (d + 1) offIdx))

/-- H7: nurses who worked night on the last day of the previous month are off
on day 1. -/
def H7check (data : ScheduleData) (x : Nat → Nat → Nat → Bool) : Bool :=
  data.prevMonthNight.all fun nurse =>
    if data.nurses.contains nurse then
      x (data.nurses.indexOf nurse) 1 offIdx == true
    else true

/-- H8: at least 4 rest ("休") days per nurse over the period. -/
def H8check (data : ScheduleData) (x : Nat → Nat → Nat → Bool) : Bool :=
  (List.range data.nurses.length).all fun n => decide (4 ≤ restSum data x n)

/-- H9: request pinning — for every nurse present in the request table's index
and every existing `day_{d}` column, a non-NaN requested code that is a member
of `data["shift_types"]` pins `x[(n, d, SHIFT_CODE[code])]` to 1. -/
def H9check (data : ScheduleData) (x : Nat → Nat → Nat → Bool) : Bool :=
  match data.requests with
  | none => true
  | some rt =>
    (List.range data.nurses.length).all fun n =>
      let nurse := data.nurses.getD n ""
      if rt.hasNurse nurse then
        (daysList data.numDays).all fun d =>
          if rt.hasDay d then
            match rt.value nurse d with
            | some code =>
                if data.shiftTypes.contains code then
                  x n d (SHIFT_CODE code) == true
                else true
            | none => true
          else true
      else true

/-- `allowed_kubo = [SHIFT_CODE[code] for code in ["CT", "2"] if code in SHIFT_CODE]`. -/
def allowedKubo : List Nat :=
  (["CT", "2"].filter fun c => SHIFT_TYPES.contains c).map SHIFT_CODE

/-- H10: 久保 may only take the CT and 2 codes — every other indicator of 久保's
row is forced to 0 on every day. -/
def H10check (data : ScheduleData) (x : Nat → Nat → Nat → Bool) : Bool :=
  if data.nurses.contains "久保" then
    let k := data.nurses.indexOf "久保"
    (daysList data.numDays).all fun d =>
      (List.range data.shiftTypes.length).all fun s =>
        if allowedKubo.contains s then true else x k d s == false
  else true

/-- The second Thursday of the period, as found by the counting loop in H11. -/
def secondThursday (numDays : Nat) : Option Nat :=
  ((daysList numDays).filter fun d => weekdayOf d == "木").get? 1

/-- H11: pin 久保 to "訪" on the second Thursday — guarded by
`"訪" in SHIFT_CODE`, which is false (`SHIFT_TYPES` contains "/訪", not "訪"),
so the pin never fires. -/
def H11check (data : ScheduleData) (x : Nat → Nat → Nat → Bool) : Bool :=
  if data.nurses.contains "久保" then
    match secondThursday data.numDays with
    | some d2 =>
        if SHIFT_TYPES.contains "訪" then
          x (data.nurses.indexOf "久保") d2 (SHIFT_CODE "訪") == true
        else true
    | none => true
  else true

/-- H12: for each day a fresh IntVar `ct_sum ∈ [0, 2]` is constrained equal to
三好's plus 前野's CT indicator and merely hinted at 1 (`AddHint` is
non-binding).  The added equality is satisfiable for an assignment `x` exactly
when the two-indicator sum is at most 2, which always holds; the block
therefore restricts nothing but is embedded for completeness. -/
def H12check (data : ScheduleData) (x : Nat → Nat → Nat → Bool) : Bool :=
  if data.nurses.contains "久保" && SHIFT_TYPES.contains "CT" &&
     data.nurses.contains "三好" && data.nurses.contains "前野" then
    (daysList data.numDays).all fun d =>
      decide (b2n (x (data.nurses.indexOf "三好") d (SHIFT_CODE "CT")) +
              b2n (x (data.nurses.indexOf "前野") d (SHIFT_CODE "CT")) ≤ 2)
  else true

/-- An assignment of the decision-variable cube satisfies the model built by
`build_hard_constraints` iff it satisfies all of H1–H12. -/
def hardSatisfies (data : ScheduleData) (x : Nat → Nat → Nat → Bool) : Bool :=
  H1check data x && H2check data x && H3check data x && H4check data x &&
  H5check data x && H6check data x && H7check data x && H8check data x &&
  H9check data x && H10check data x && H11check data x && H12check data x

/-- CP-SAT solver status classification (`cp_model` statuses used by the code). -/
inductive CpStatus where
  | unknown
  | modelInvalid
  | feasible
  | infeasible
  | optimal
deriving DecidableEq

/-- Post-solve result construction of `solve_initial_model`: the DataFrame is
initialised to `""`; on status OPTIMAL/FEASIBLE/UNKNOWN each cell gets the code
of the first shift whose variable valuation is true (the cell keeps `""` and a
warning is printed when none is); on any other status every cell is set to the
rest code "休". -/
def initialResultCell (status : CpStatus) (v : Nat → Nat → Nat → Bool)
    (n d : Nat) : String :=
  if status = .optimal ∨ status = .feasible ∨ status = .unknown then
    match (List.range SHIFT_TYPES.length).find? fun s => v n d s with
    | some s => SHIFT_TYPES.getD s ""
    | none => ""
  else "休"

/-- Post-solve result construction of `optimize_final_schedule`: only
OPTIMAL/FEASIBLE are accepted; on any other status the initial all-`""`
DataFrame is returned unchanged. -/
def finalResultCell (status : CpStatus) (v : Nat → Nat → Nat → Bool)
    (n d : Nat) : String :=
  if status = .optimal ∨ status = .feasible then
    match (List.range SHIFT_TYPES.length).find? fun s => v n d s with
    | some s => SHIFT_TYPES.getD s ""
    | none => ""
  else ""

/-- One nurse's violation messages from `validate_constraints`
(`utils/validator.py`): first the invalid-shift messages over all day columns,
then the night-not-followed-by-off messages over all days, in day order.
`max_day` is the largest day column, i.e. `numDays`. -/
def nurseViolations (numDays : Nat) (cell : String → Nat → String)
    (nurse : String) : List String :=
  ((daysList numDays).filterMap fun d =>
    if SHIFT_TYPES.contains (cell nurse d) then none
    else some ("Invalid shift \x27" ++ cell nurse d ++ "\x27 for " ++ nurse ++
               " on day_" ++ toString d)) ++
  ((daysList numDays).filterMap fun d =>
    if cell nurse d == "夜" && decide (d < numDays) then
      if cell nurse (d + 1) == "×" then none
      else some ("Night shift not followed by \x27×\x27 for " ++ nurse ++
                 " on day " ++ toString (d + 1))
    else none)

/-- `validate_constraints`: the violation lists of all nurses, in index order. -/
def validate_constraints (nurses : List String) (numDays : Nat)
    (cell : String → Nat → String) : List String :=
  nurses.flatMap (nurseViolations numDays cell)

/-- S1 penalty values (`add_soft_constraints`): the absolute deviation of each
nurse's 休+× count from 13, forced exactly by `AddAbsEquality`. -/
def s1List (data : ScheduleData) (x : Nat → Nat → Nat → Bool) : List Nat :=
  (List.range data.nurses.length).map fun n =>
    let offCount : Int :=
      (((daysList data.numDays).map fun d =>
          b2n (x n d (data.shiftTypes.indexOf "休"))).sum : Nat) +
      (((daysList data.numDays).map fun d =>
          b2n (x n d (data.shiftTypes.indexOf "×"))).sum : Nat)
    (offCount - 13).natAbs

/-- S2 penalty values: one `diff_night` IntVar per night-preferring nurse,
only *lower*-bounded by the two inequalities, hence under-determined by `x`;
the solver-chosen value is abstracted as `aux2` applied to the nurse index. -/
def s2List (data : ScheduleData) (aux2 : Nat → Nat) : List Nat :=
  ((List.range data.nurses.length).filter fun n =>
    data.nightShiftPreferred.contains (data.nurses.getD n "")).map aux2

/-- S3 penalty values: one `diff_total` IntVar per shift code, likewise only
lower-bounded by its two inequalities; abstracted as `aux3` per shift index. -/
def s3List (data : ScheduleData) (aux3 : Nat → Nat) : List Nat :=
  (List.range data.shiftTypes.length).map aux3

/-- S4 penalty values: the `four_penalty_{n}` flag is reified in both
directions, hence forced to `has_night ∧ no_four`. -/
def s4List (data : ScheduleData) (x : Nat → Nat → Nat → Bool) : List Nat :=
  if data.shiftTypes.contains "4" then
    (List.range data.nurses.length).map fun n =>
      let nightCount := ((daysList data.numDays).map fun d =>
        b2n (x n d (data.shiftTypes.indexOf "夜"))).sum
      let fourCount := ((daysList data.numDays).map fun d =>
        b2n (x n d (data.shiftTypes.indexOf "4"))).sum
      b2n (decide (1 ≤ nightCount) && decide (fourCount = 0))
  else []

/-- S5 penalty values: for every (nurse, day) whose anchor code is a member of
`data["shift_types"]`, the `change_{n}_{d}` flag is reified in both directions,
hence forced to `1 - x[(n, d, idx)]` where `idx` is the anchor code's index in
`data["shift_types"]`. -/
def s5List (data : ScheduleData) (x : Nat → Nat → Nat → Bool) : List Nat :=
  match data.initialSolution with
  | none => []
  | some anchor =>
    (List.range data.nurses.length).flatMap fun n =>
      (daysList data.numDays).filterMap fun d =>
        let initShift := anchor (data.nurses.getD n "") d
        if data.shiftTypes.contains initShift then
          some (1 - b2n (x n d (data.shiftTypes.indexOf initShift)))
        else none

/-- The `penalties` list of `add_soft_constraints`, in construction order. -/
def softPenalties (data : ScheduleData) (x : Nat → Nat → Nat → Bool)
    (aux2 aux3 : Nat → Nat) : List Nat :=
  s1List data x ++ s2List data aux2 ++ s3List data aux3 ++
  s4List data x ++ s5List data x

/-- The `weighted_penalties` objective: the first three groups are selected by
list slicing (`penalties[:num_nurses]`, `penalties[num_nurses:num_nurses*2]`,
`penalties[num_nurses*2:num_nurses*2+len(shift_types)]`), the S4 and S5 groups
by variable-name filtering (`"four_penalty"`, `"change_"`), which picks exactly
the `s4List` and `s5List` entries. -/
def weightedPenalties (w1 w2 w3 w4 w5 : Nat) (data : ScheduleData)
    (x : Nat → Nat → Nat → Bool) (aux2 aux3 : Nat → Nat) : Nat :=
  let ps := softPenalties data x aux2 aux3
  let nN := data.nurses.length
  (ps.take nN).sum * w1 +
  ((ps.drop nN).take nN).sum * w2 +
  ((ps.drop (2 * nN)).take data.shiftTypes.length).sum * w3 +
  (s4List data x).sum * w4 +
  (s5List data x).sum * w5

/-- The assignment that encodes a schedule DataFrame (such as the Phase-1
anchor) back into the decision cube: the indicator of the cell's code index is
true, every other indicator false. -/
def encodeAnchor (nurses : List String) (anchor : String → Nat → String) :
    Nat → Nat → Nat → Bool :=
  fun n d s => SHIFT_TYPES.indexOf (anchor (nurses.getD n "") d) == s

/-- The `data` dict built by `solve_initial_model` / `optimize_final_schedule`
from the static configuration: the roster `NURSES`, period `NUM_DAYS`, shift
enumeration `SHIFT_TYPES`, and the run's request table. -/
def defaultData (rq : Option ReqTable) (pv : List String) : ScheduleData :=
  { nurses := NURSES, numDays := NUM_DAYS, shiftTypes := SHIFT_TYPES,
    requests := rq, prevMonthNight := pv }

/-- Degenerate configuration with an empty roster and an empty period (the
only configuration whose hard model is satisfiable, since H5 demands a night
nurse on every existing day and H8 demands rest days of every existing nurse). -/
def emptyData : ScheduleData :=
  { nurses := [], numDays := 0, shiftTypes := SHIFT_TYPES }

/-- The all-false assignment of the decision cube. -/
def x0 : Nat → Nat → Nat → Bool := fun _ _ _ => false

/-- The all-true valuation (used to evaluate the result builders). -/
def x1 : Nat → Nat → Nat → Bool := fun _ _ _ => true

/-- One nurse, two days: used to show H6 is an implication, not a
biconditional. -/
def oneNurseData : ScheduleData :=
  { nurses := ["甲"], numDays := 2, shiftTypes := SHIFT_TYPES }

/-- Assignment whose only true indicator is the off code on day 2. -/
def xOffOnly : Nat → Nat → Nat → Bool :=
  fun n d s => n == 0 && d == 2 && s == offIdx

lemma hardSat_empty : hardSatisfies emptyData x0 = true := rfl

lemma mem_daysList {d n : Nat} : d ∈ daysList n ↔ 1 ≤ d ∧ d ≤ n := by
  simp only [daysList, List.mem_map, List.mem_range]
  constructor
  · rintro ⟨a, ha, rfl⟩; omega
  · intro h; exact ⟨d - 1, by omega, by omega⟩

lemma listRange_map_sum_eq (f : Nat → Nat) (n : Nat) :
    ((List.range n).map f).sum = ∑ i in Finset.range n, f i := by
  induction n with
  | zero => simp
  | succ m ih =>
      rw [List.range_succ, List.map_append, List.sum_append,
        Finset.sum_range_succ, ih]
      simp

/-- If the 0/1 indicators over `range k` sum to 1 and position `i` is true,
every other position is false. -/
lemma b2n_sum_unique {g : Nat → Bool} {k i : Nat} (hik : i < k)
    (hi : g i = true)
    (hsum : ((List.range k).map fun s => b2n (g s)).sum = 1) :
    ∀ j, j < k → j ≠ i → g j = false := by
  intro j hjk hji
  by_contra hj
  rw [Bool.not_eq_false] at hj
  rw [listRange_map_sum_eq] at hsum
  have hsub : ({i, j} : Finset Nat) ⊆ Finset.range k := by
    intro t ht
    rcases Finset.mem_insert.mp ht with rfl | ht'
    · exact Finset.mem_range.mpr hik
    · rw [Finset.mem_singleton] at ht'; subst ht'
      exact Finset.mem_range.mpr hjk
  have hle := Finset.sum_le_sum_of_subset (f := fun s => b2n (g s)) hsub
  rw [Finset.sum_pair (Ne.symm hji)] at hle
  rw [hsum] at hle
  simp [b2n, hi, hj] at hle

/-- `find?` over `range k` returns the unique true position. -/
lemma find?_range_unique {g : Nat → Bool} {k i : Nat} (hik : i < k)
    (hi : g i = true) (huniq : ∀ j, j < k → j ≠ i → g j = false) :
    (List.range k).find? g = some i := by
  have main : ∀ l : List Nat, i ∈ l → (∀ j ∈ l, g j = true → j = i) →
      l.find? g = some i := by
    intro l
    induction l with
    | nil => intro hmem; cases hmem
    | cons a t ih =>
        intro hmem huq
        by_cases ha : g a = true
        · have : a = i := huq a (List.mem_cons_self a t) ha
          subst this
          simp [List.find?, ha]
        · rw [List.find?_cons_of_neg _ (by simpa using ha)]
          apply ih
          · rcases List.mem_cons.mp hmem with rfl | h
            · exact absurd hi ha
            · exact h
          · intro j hj hgj
            exact huq j (List.mem_cons_of_mem _ hj) hgj
  apply main
  · exact List.mem_range.mpr hik
  · intro j hj hgj
    by_contra hne
    exact absurd hgj (by simp [huniq j (List.mem_range.mp hj) hne])

lemma hard_H1 {data : ScheduleData} {x : Nat → Nat → Nat → Bool}
    (h : hardSatisfies data x = true) : H1check data x = true := by
  simp only [hardSatisfies, Bool.and_eq_true] at h
  exact h.1.1.1.1.1.1.1.1.1.1.1

lemma hard_H5 {data : ScheduleData} {x : Nat → Nat → Nat → Bool}
    (h : hardSatisfies data x = true) : H5check data x = true := by
  simp only [hardSatisfies, Bool.and_eq_true] at h
  exact h.1.1.1.1.1.1.1.2

lemma hard_H6 {data : ScheduleData} {x : Nat → Nat → Nat → Bool}
    (h : hardSatisfies data x = true) : H6check data x = true := by
  simp only [hardSatisfies, Bool.and_eq_true] at h
  exact h.1.1.1.1.1.1.2

lemma hard_H8 {data : ScheduleData} {x : Nat → Nat → Nat → Bool}
    (h : hardSatisfies data x = true) : H8check data x = true := by
  simp only [hardSatisfies, Bool.and_eq_true] at h
  exact h.1.1.1.1.2

lemma hard_H9 {data : ScheduleData} {x : Nat → Nat → Nat → Bool}
    (h : hardSatisfies data x = true) : H9check data x = true := by
  simp only [hardSatisfies, Bool.and_eq_true] at h
  exact h.1.1.1.2

lemma hard_H10 {data : ScheduleData} {x : Nat → Nat → Nat → Bool}
    (h : hardSatisfies data x = true) : H10check data x = true := by
  simp only [hardSatisfies, Bool.and_eq_true] at h
  exact h.1.1.2

/-- C2: with the default configuration, 久保's rest indicator is forced false
on every day by H10. -/
lemma kubo_rest_false {rq : Option ReqTable} {pv : List String}
    {x : Nat → Nat → Nat → Bool}
    (h : H10check (defaultData rq pv) x = true) :
    ∀ d ∈ daysList NUM_DAYS, x 10 d 0 = false := by
  intro d hd
  have h' : ((daysList NUM_DAYS).all fun d =>
      (List.range 22).all fun s =>
        if allowedKubo.contains s then true else x 10 d s == false) = true := h
  rw [List.all_eq_true] at h'
  have h2 := h' d hd
  rw [List.all_eq_true] at h2
  have h0 := h2 0 (List.mem_range.mpr (by omega))
  have hc : allowedKubo.contains 0 = false := by decide
  rw [hc] at h0
  simpa using h0

/-- C2 (claim `implicit`): the hard model built by `build_hard_constraints`
for the default configuration is unsatisfiable — whatever the request table,
the previous-month night list and the assignment, H10 confines 久保 to the CT
and 2 codes, so 久保's 休-count is 0, contradicting H8's minimum of 4. -/
theorem c2_default_hard_model_unsat (rq : Option ReqTable) (pv : List String)
    (x : Nat → Nat → Nat → Bool) :
    hardSatisfies (defaultData rq pv) x = false := by
  cases hS : hardSatisfies (defaultData rq pv) x with
  | false => rfl
  | true =>
    exfalso
    have h10 := kubo_rest_false (hard_H10 hS)
    have h8 := hard_H8 hS
    rw [H8check, List.all_eq_true] at h8
    have hlen : (defaultData rq pv).nurses.length = 14 := rfl
    have h8k := h8 10 (List.mem_range.mpr (by rw [hlen]; omega))
    rw [decide_eq_true_eq] at h8k
    have hz : restSum (defaultData rq pv) x 10 = 0 := by
      apply List.sum_eq_zero
      intro y hy
      rw [List.mem_map] at hy
      obtain ⟨d, hd, rfl⟩ := hy
      have hridx : restIdx = 0 := by decide
      have hx : x 10 d restIdx = false := by rw [hridx]; exact h10 d hd
      simp [b2n, hx]
    rw [hz] at h8k
    omega

/-- H1 gives each in-range cell indicator sum exactly 1. -/
lemma hard_exactly_one {data : ScheduleData} {x : Nat → Nat → Nat → Bool}
    (h : hardSatisfies data x = true) {n d : Nat}
    (hn : n < data.nurses.length) (hd1 : 1 ≤ d) (hd2 : d ≤ data.numDays) :
    shiftSum data x n d = 1 := by
  have h1 : H1check data x = true := hard_H1 h
  rw [H1check, List.all_eq_true] at h1
  have h1n := h1 n (List.mem_range.mpr hn)
  rw [List.all_eq_true] at h1n
  have h1nd := h1n d (mem_daysList.mpr ⟨hd1, hd2⟩)
  simpa using h1nd

/-- C4: every assignment satisfying the hard-constraint model gives every
(nurse, day) cell exactly one true shift-code indicator: the 0/1 indicators
summed over all shift codes equal 1. -/
theorem c4_exactly_one_shift_per_cell (data : ScheduleData)
    (x : Nat → Nat → Nat → Bool) (h : hardSatisfies data x = true) :
    ∀ n, n < data.nurses.length → ∀ d, 1 ≤ d → d ≤ data.numDays →
      shiftSum data x n d = 1 := by
  intro n hn d hd1 hd2
  exact hard_exactly_one h hn hd1 hd2

/-- C4 witness: the empty configuration satisfies its hard model (vacuously),
and the exactly-one-shift conclusion holds for it. -/
theorem c4_witness :
    hardSatisfies emptyData x0 = true ∧
    (∀ n, n < emptyData.nurses.length → ∀ d, 1 ≤ d → d ≤ emptyData.numDays →
      shiftSum emptyData x0 n d = 1) :=
  ⟨hardSat_empty, c4_exactly_one_shift_per_cell emptyData x0 hardSat_empty⟩

/-- C5: every assignment satisfying the hard-constraint model has exactly one
nurse on the night code 夜 on every day. -/
theorem c5_single_night_coverage (data : ScheduleData)
    (x : Nat → Nat → Nat → Bool) (h : hardSatisfies data x = true) :
    ∀ d, 1 ≤ d → d ≤ data.numDays → nurseSum data x d nightIdx = 1 := by
  intro d hd1 hd2
  have h5 : H5check data x = true := hard_H5 h
  rw [H5check, List.all_eq_true] at h5
  have h5d := h5 d (mem_daysList.mpr ⟨hd1, hd2⟩)
  simpa using h5d

/-- C5 witness at the empty configuration. -/
theorem c5_witness :
    hardSatisfies emptyData x0 = true ∧
    (∀ d, 1 ≤ d → d ≤ emptyData.numDays →
      nurseSum emptyData x0 d nightIdx = 1) :=
  ⟨hardSat_empty, c5_single_night_coverage emptyData x0 hardSat_empty⟩

/-- C9: every assignment satisfying the hard-constraint model gives every
nurse at least 4 rest-code (休) days over the period. -/
theorem c9_minimum_rest_days (data : ScheduleData)
    (x : Nat → Nat → Nat → Bool) (h : hardSatisfies data x = true) :
    ∀ n, n < data.nurses.length → 4 ≤ restSum data x n := by
  intro n hn
  have h8 : H8check data x = true := hard_H8 h
  rw [H8check, List.all_eq_true] at h8
  have h8n := h8 n (List.mem_range.mpr hn)
  rwa [decide_eq_true_eq] at h8n

/-- C9 witness at the empty configuration. -/
theorem c9_witness :
    hardSatisfies emptyData x0 = true ∧
    (∀ n, n < emptyData.nurses.length → 4 ≤ restSum emptyData x0 n) :=
  ⟨hardSat_empty, c9_minimum_rest_days emptyData x0 hardSat_empty⟩

/-- C6: under the hard model, a night shift on a day strictly before the last
forces the off code × on the next day; and the constraint is an implication
only — H6 is satisfied by an assignment with an off day not preceded by a
night shift. -/
theorem c6_night_followed_by_off (data : ScheduleData)
    (x : Nat → Nat → Nat → Bool) (h : hardSatisfies data x = true) :
    (∀ n, n < data.nurses.length → ∀ d, 1 ≤ d → d < data.numDays →
      x n d nightIdx = true → x n (d + 1) offIdx = true) ∧
    (H6check oneNurseData xOffOnly = true ∧ xOffOnly 0 1 nightIdx = false ∧
      xOffOnly 0 2 offIdx = true) := by
  constructor
  · intro n hn d hd1 hd2 hnight
    have h6 := hard_H6 h
    rw [H6check, List.all_eq_true] at h6
    have h6n := h6 n (List.mem_range.mpr hn)
    rw [List.all_eq_true] at h6n
    have hdm : d ∈ (List.range (data.numDays - 1)).map (· + 1) := by
      rw [List.mem_map]
      exact ⟨d - 1, List.mem_range.mpr (by omega), by omega⟩
    have h6nd := h6n d hdm
    rw [decide_eq_true_eq] at h6nd
    cases hoff : x n (d + 1) offIdx
    · rw [hnight, hoff] at h6nd; simp [b2n] at h6nd
    · rfl
  · exact ⟨by decide, by decide, by decide⟩

/-- C6 witness at the empty configuration. -/
theorem c6_witness :
    hardSatisfies emptyData x0 = true ∧
    ((∀ n, n < emptyData.nurses.length → ∀ d, 1 ≤ d → d < emptyData.numDays →
      x0 n d nightIdx = true → x0 n (d + 1) offIdx = true) ∧
    (H6check oneNurseData xOffOnly = true ∧ xOffOnly 0 1 nightIdx = false ∧
      xOffOnly 0 2 offIdx = true)) :=
  ⟨hardSat_empty, c6_night_followed_by_off emptyData x0 hardSat_empty⟩

/-- C1 counterexample: with the accepted status UNKNOWN and a valuation with
no true indicator (the backend found no candidate), the returned cell is the
empty string — blank, not the rest-code fallback — refuting "fully populated
… never left blank". -/
theorem c1_counterexample :
    initialResultCell CpStatus.unknown x0 0 1 = "" ∧
    ("" : String) ∉ SHIFT_TYPES := by
  exact ⟨rfl, by decide⟩

/-- C1 amended: `solve_initial_model` accepts OPTIMAL/FEASIBLE/UNKNOWN and on
any other status substitutes the all-休 fallback for every cell; under an
accepted status a cell is populated with a known shift code provided its
valuation has at least one true indicator (otherwise it is left blank and a
warning is logged). -/
theorem c1_initial_result (status : CpStatus) (v : Nat → Nat → Nat → Bool) :
    (¬(status = .optimal ∨ status = .feasible ∨ status = .unknown) →
      ∀ n d, initialResultCell status v n d = "休") ∧
    ((status = .optimal ∨ status = .feasible ∨ status = .unknown) →
      ∀ n d, (∃ s, s < SHIFT_TYPES.length ∧ v n d s = true) →
        initialResultCell status v n d ∈ SHIFT_TYPES) := by
  constructor
  · intro hrej n d
    rw [initialResultCell, if_neg hrej]
  · rintro hacc n d ⟨s, hs, hv⟩
    rw [initialResultCell, if_pos hacc]
    cases hf : (List.range SHIFT_TYPES.length).find? (fun s => v n d s) with
    | none =>
        exfalso
        have := List.find?_eq_none.mp hf s (List.mem_range.mpr hs)
        simp [hv] at this
    | some t =>
        have htm := List.mem_of_find?_eq_some hf
        rw [List.mem_range] at htm
        have hgd : SHIFT_TYPES.getD t "" = SHIFT_TYPES.get ⟨t, htm⟩ := by
          rw [List.getD_eq_getElem _ _ htm]
          simp
        show SHIFT_TYPES.getD t "" ∈ SHIFT_TYPES
        rw [hgd]
        exact List.get_mem _ _ htm

/-- C1 witness: the fallback branch fills 休 and an accepted status with a
true indicator yields a known shift code. -/
theorem c1_witness :
    initialResultCell CpStatus.infeasible x0 0 1 = "休" ∧
    initialResultCell CpStatus.optimal x1 0 1 ∈ SHIFT_TYPES :=
  ⟨(c1_initial_result CpStatus.infeasible x0).1 (by decide) 0 1,
   (c1_initial_result CpStatus.optimal x1).2 (Or.inl rfl) 0 1
     ⟨0, by decide, rfl⟩⟩

/-- C3 (code bug documented by the spec): on every non-accepted status,
`optimize_final_schedule` silently returns the initial all-empty-string
DataFrame — every cell is `""` even when the valuation is available — instead
of propagating a failure signal to the caller. -/
theorem c3_failure_returns_empty_schedule :
    (∀ n d, finalResultCell CpStatus.infeasible x1 n d = "") ∧
    (∀ n d, finalResultCell CpStatus.unknown x1 n d = "") ∧
    (∀ n d, finalResultCell CpStatus.modelInvalid x1 n d = "") :=
  ⟨fun _ _ => rfl, fun _ _ => rfl, fun _ _ => rfl⟩

/-- The C7 scenario grid: one nurse, night on day 3, a known non-off code
(休) on day 4, and no other violation. -/
def demoCell : String → Nat → String := fun _ d => if d == 3 then "夜" else "休"

/-- The all-rest grid, clean for the Validator. -/
def allRestCell : String → Nat → String := fun _ _ => "休"

lemma contains_iff_mem {l : List String} {a : String} :
    l.contains a = true ↔ a ∈ l := by
  rw [List.contains_eq_any_beq, List.any_eq_true]
  constructor
  · rintro ⟨b, hb, hab⟩
    rw [beq_iff_eq] at hab
    exact hab ▸ hb
  · intro h
    exact ⟨a, h, by simp⟩

lemma nurseViolations_eq_nil_iff (numDays : Nat) (cell : String → Nat → String)
    (nurse : String) :
    nurseViolations numDays cell nurse = [] ↔
      (∀ d, 1 ≤ d → d ≤ numDays → cell nurse d ∈ SHIFT_TYPES) ∧
      (∀ d, 1 ≤ d → d < numDays → cell nurse d = "夜" →
        cell nurse (d + 1) = "×") := by
  rw [nurseViolations, List.append_eq_nil, List.filterMap_eq_nil_iff,
    List.filterMap_eq_nil_iff]
  constructor
  · rintro ⟨h1, h2⟩
    constructor
    · intro d hd1 hd2
      have hv := h1 d (mem_daysList.mpr ⟨hd1, hd2⟩)
      by_cases hc : SHIFT_TYPES.contains (cell nurse d) = true
      · exact contains_iff_mem.mp hc
      · rw [if_neg hc] at hv
        simp at hv
    · intro d hd1 hd2 hnight
      have hv := h2 d (mem_daysList.mpr ⟨hd1, by omega⟩)
      have hcond : (cell nurse d == "夜" && decide (d < numDays)) = true := by
        simp [hnight, hd2]
      rw [if_pos hcond] at hv
      by_cases hx : (cell nurse (d + 1) == "×") = true
      · exact beq_iff_eq.mp hx
      · rw [if_neg hx] at hv
        simp at hv
  · rintro ⟨h1, h2⟩
    constructor
    · intro d hd
      obtain ⟨hd1, hd2⟩ := mem_daysList.mp hd
      rw [if_pos (contains_iff_mem.mpr (h1 d hd1 hd2))]
    · intro d hd
      obtain ⟨hd1, hd2⟩ := mem_daysList.mp hd
      by_cases hn : (cell nurse d == "夜") = true
      · by_cases hlt : d < numDays
        · have hoff := h2 d hd1 hlt (beq_iff_eq.mp hn)
          rw [if_pos (by simp [hn, hlt]), if_pos (by simp [hoff])]
        · rw [if_neg (by simp [hlt])]
      · rw [if_neg (by simp [hn])]

/-- C7: on the scenario grid (night on day 3, non-off known code on day 4, no
other violation) the Validator returns exactly one violation string, naming
the nurse and day 4; in general its result is the empty list exactly when
every cell is a known shift code and every night shift strictly before the
last day is followed by the off code ×. -/
theorem c7_validator_behaviour :
    validate_constraints ["中山"] 5 demoCell =
      ["Night shift not followed by \x27×\x27 for 中山 on day 4"] ∧
    (∀ (nurses : List String) (numDays : Nat) (cell : String → Nat → String),
      1 ≤ numDays →
      (validate_constraints nurses numDays cell = [] ↔
        (∀ nurse ∈ nurses, ∀ d, 1 ≤ d → d ≤ numDays →
          cell nurse d ∈ SHIFT_TYPES) ∧
        (∀ nurse ∈ nurses, ∀ d, 1 ≤ d → d < numDays → cell nurse d = "夜" →
          cell nurse (d + 1) = "×"))) := by
  constructor
  · decide
  · intro nurses numDays cell _
    rw [validate_constraints, List.flatMap_eq_nil_iff]
    constructor
    · intro h
      constructor
      · intro nurse hn
        exact ((nurseViolations_eq_nil_iff numDays cell nurse).mp (h nurse hn)).1
      · intro nurse hn
        exact ((nurseViolations_eq_nil_iff numDays cell nurse).mp (h nurse hn)).2
    · rintro ⟨h1, h2⟩ nurse hn
      exact (nurseViolations_eq_nil_iff numDays cell nurse).mpr
        ⟨h1 nurse hn, h2 nurse hn⟩

/-- C7 witness: the general characterisation applied to a clean all-rest grid
yields the empty violation list. -/
theorem c7_witness :
    validate_constraints ["中山"] 3 allRestCell = [] ∧ 1 ≤ 3 :=
  ⟨(c7_validator_behaviour.2 ["中山"] 3 allRestCell (by omega)).mpr
    ⟨fun _ _ d _ _ => by show "休" ∈ SHIFT_TYPES; decide,
     fun _ _ d _ _ h => by simp [allRestCell] at h⟩,
   by omega⟩

/-- The empty request table: no nurse row, no day column, no value. -/
def rt0 : ReqTable := ⟨fun _ => false, fun _ => false, fun _ _ => none⟩

/-- Positional constructor for the `data` dict. -/
def mkData (nurses : List String) (numDays : Nat) (st : List String)
    (rq : Option ReqTable) (pv pref : List String)
    (io : Option (String → Nat → String)) : ScheduleData :=
  { nurses := nurses, numDays := numDays, shiftTypes := st, requests := rq,
    prevMonthNight := pv, nightShiftPreferred := pref, initialSolution := io }

/-- H9 reads the request table only at present (nurse row, day column) pairs:
tables with the same membership functions that agree there constrain `x`
identically. -/
lemma H9_respects_agreement (nurses : List String) (numDays : Nat)
    (st : List String) (pv pref : List String)
    (io : Option (String → Nat → String)) (rt rt' : ReqTable)
    (x : Nat → Nat → Nat → Bool)
    (hN : rt'.hasNurse = rt.hasNurse) (hD : rt'.hasDay = rt.hasDay)
    (hV : ∀ nu d, rt.hasNurse nu = true → rt.hasDay d = true →
      rt'.value nu d = rt.value nu d)
    (h : H9check (mkData nurses numDays st (some rt) pv pref io) x = true) :
    H9check (mkData nurses numDays st (some rt') pv pref io) x = true := by
  simp only [H9check, mkData] at h ⊢
  rw [List.all_eq_true] at h ⊢
  intro n hn
  have hn' := h n hn
  rw [hN]
  by_cases hhn : rt.hasNurse (nurses.getD n "") = true
  · rw [if_pos hhn] at hn' ⊢
    rw [List.all_eq_true] at hn' ⊢
    intro d hd
    have hd' := hn' d hd
    rw [hD]
    by_cases hhd : rt.hasDay d = true
    · rw [if_pos hhd] at hd' ⊢
      rw [hV (nurses.getD n "") d hhn hhd]
      exact hd'
    · rw [if_neg hhd]
  · rw [if_neg hhn]

/-- C10: in the hard model with a request table, every valid request — nurse
present in the table's index, day column present, value a shift code of the
enumeration — forces the corresponding indicator true (H9); and a table that
differs only at absent nurses or absent day columns produces the same model,
i.e. missing request data is silently treated as no preference, never an
error. -/
theorem c10_request_pinning (nurses : List String) (numDays : Nat)
    (st : List String) (rt : ReqTable) (pv pref : List String)
    (io : Option (String → Nat → String)) (x : Nat → Nat → Nat → Bool)
    (h : hardSatisfies (mkData nurses numDays st (some rt) pv pref io) x =
      true) :
    (∀ n, n < nurses.length → ∀ d, 1 ≤ d → d ≤ numDays → ∀ code,
      rt.hasNurse (nurses.getD n "") = true → rt.hasDay d = true →
      rt.value (nurses.getD n "") d = some code → code ∈ st →
      x n d (SHIFT_CODE code) = true) ∧
    (∀ rt' : ReqTable, rt'.hasNurse = rt.hasNurse → rt'.hasDay = rt.hasDay →
      (∀ nu d, rt.hasNurse nu = true → rt.hasDay d = true →
        rt'.value nu d = rt.value nu d) →
      hardSatisfies (mkData nurses numDays st (some rt') pv pref io) x =
        true) := by
  constructor
  · intro n hn d hd1 hd2 code hhn hhd hval hmem
    have h9 := hard_H9 h
    simp only [H9check, mkData] at h9
    rw [List.all_eq_true] at h9
    have h9n := h9 n (List.mem_range.mpr hn)
    rw [if_pos hhn, List.all_eq_true] at h9n
    have h9nd := h9n d (mem_daysList.mpr ⟨hd1, hd2⟩)
    rw [if_pos hhd] at h9nd
    rw [hval] at h9nd
    have h9nd' : (if st.contains code = true then
        x n d (SHIFT_CODE code) == true else true) = true := h9nd
    rw [if_pos (contains_iff_mem.mpr hmem)] at h9nd'
    simpa using h9nd'
  · intro rt' hN hD hV
    simp only [hardSatisfies, Bool.and_eq_true] at h ⊢
    obtain ⟨⟨⟨⟨⟨⟨⟨⟨⟨⟨⟨h1, h2⟩, h3⟩, h4⟩, h5⟩, h6⟩, h7⟩, h8⟩, h9⟩, h10⟩,
      h11⟩, h12⟩ := h
    exact ⟨⟨⟨⟨⟨⟨⟨⟨⟨⟨⟨h1, h2⟩, h3⟩, h4⟩, h5⟩, h6⟩, h7⟩, h8⟩,
      H9_respects_agreement nurses numDays st pv pref io rt rt' x hN hD hV h9⟩,
      h10⟩, h11⟩, h12⟩

/-- C10 witness: the empty configuration with an empty request table satisfies
its hard model, and replacing the table by one agreeing on (vacuously) present
entries preserves satisfaction. -/
theorem c10_witness :
    hardSatisfies (mkData [] 0 SHIFT_TYPES (some rt0) [] [] none) x0 = true :=
  (c10_request_pinning [] 0 SHIFT_TYPES rt0 [] [] none x0 rfl).2 rt0 rfl rfl
    (fun _ _ _ _ => rfl)

/-- A sum of naturals is zero only if every summand is. -/
lemma nat_list_sum_zero {l : List Nat} (h : l.sum = 0) : ∀ y ∈ l, y = 0 := by
  induction l with
  | nil => intro y hy; cases hy
  | cons a t ih =>
      rw [List.sum_cons] at h
      intro y hy
      rcases List.mem_cons.mp hy with rfl | hyt
      · omega
      · exact ih (by omega) y hyt

/-- With zero weight on S1–S4 and weight 1 on the stability term, the
objective is exactly the sum of the stability penalties. -/
lemma weightedPenalties_stability (data : ScheduleData)
    (x : Nat → Nat → Nat → Bool) (aux2 aux3 : Nat → Nat) :
    weightedPenalties 0 0 0 0 1 data x aux2 aux3 = (s5List data x).sum := by
  simp [weightedPenalties]

/-- The anchor's own encoding incurs zero stability penalty. -/
lemma s5_encode_sum_zero (nurses : List String) (numDays : Nat)
    (rq : Option ReqTable) (pv pref : List String)
    (anchor : String → Nat → String) :
    (s5List (mkData nurses numDays SHIFT_TYPES rq pv pref (some anchor))
      (encodeAnchor nurses anchor)).sum = 0 := by
  apply List.sum_eq_zero
  intro y hy
  simp only [s5List, mkData] at hy
  rw [List.mem_flatMap] at hy
  obtain ⟨n, hn, hy⟩ := hy
  rw [List.mem_filterMap] at hy
  obtain ⟨d, hd, hf⟩ := hy
  by_cases hc :
      SHIFT_TYPES.contains (anchor (nurses.getD n "") d) = true
  · rw [if_pos hc] at hf
    have hv := Option.some.inj hf
    rw [← hv]
    simp [encodeAnchor, b2n]
  · rw [if_neg hc] at hf
    exact absurd hf (by simp)

/-- Membership of a cell's stability penalty in the S5 list. -/
lemma s5_mem (nurses : List String) (numDays : Nat) (rq : Option ReqTable)
    (pv pref : List String) (anchor : String → Nat → String)
    (x : Nat → Nat → Nat → Bool) {n d : Nat} (hn : n < nurses.length)
    (hd : d ∈ daysList numDays)
    (hc : SHIFT_TYPES.contains (anchor (nurses.getD n "") d) = true) :
    (1 - b2n (x n d (SHIFT_TYPES.indexOf (anchor (nurses.getD n "") d)))) ∈
      s5List (mkData nurses numDays SHIFT_TYPES rq pv pref (some anchor)) x := by
  simp only [s5List, mkData]
  rw [List.mem_flatMap]
  exact ⟨n, List.mem_range.mpr hn,
    List.mem_filterMap.mpr ⟨d, hd, by rw [if_pos hc]⟩⟩

/-- The first index of a present element reads back to the element. -/
lemma getD_indexOf_self {l : List String} {a : String} (h : a ∈ l) :
    l.getD (l.indexOf a) "" = a := by
  have hlt : l.indexOf a < l.length := List.indexOf_lt_length.mpr h
  rw [List.getD_eq_getElem _ _ hlt]
  exact List.getElem_indexOf hlt

/-- C8: re-running Phase 2 against an unchanged Phase-1 anchor with zero
weight on every penalty group except the stability term reproduces the anchor
exactly — any hard-feasible assignment whose objective does not exceed the
anchor encoding's objective extracts, cell for cell, to the anchor schedule. -/
theorem c8_phase2_stability_idempotence (nurses : List String) (numDays : Nat)
    (rq : Option ReqTable) (pv pref : List String)
    (anchor : String → Nat → String) (x : Nat → Nat → Nat → Bool)
    (aux2 aux3 : Nat → Nat)
    (hx : hardSatisfies
      (mkData nurses numDays SHIFT_TYPES rq pv pref (some anchor)) x = true)
    (hanchor : ∀ n, n < nurses.length → ∀ d, 1 ≤ d → d ≤ numDays →
      anchor (nurses.getD n "") d ∈ SHIFT_TYPES)
    (hopt : weightedPenalties 0 0 0 0 1
        (mkData nurses numDays SHIFT_TYPES rq pv pref (some anchor))
        x aux2 aux3 ≤
      weightedPenalties 0 0 0 0 1
        (mkData nurses numDays SHIFT_TYPES rq pv pref (some anchor))
        (encodeAnchor nurses anchor) aux2 aux3) :
    ∀ n, n < nurses.length → ∀ d, 1 ≤ d → d ≤ numDays →
      finalResultCell CpStatus.optimal x n d = anchor (nurses.getD n "") d := by
  intro n hn d hd1 hd2
  rw [weightedPenalties_stability, weightedPenalties_stability,
    s5_encode_sum_zero] at hopt
  have hsum0 :
      (s5List (mkData nurses numDays SHIFT_TYPES rq pv pref (some anchor))
        x).sum = 0 := Nat.le_zero.mp hopt
  have hmemIdx : anchor (nurses.getD n "") d ∈ SHIFT_TYPES :=
    hanchor n hn d hd1 hd2
  have hc : SHIFT_TYPES.contains (anchor (nurses.getD n "") d) = true :=
    contains_iff_mem.mpr hmemIdx
  have hmem := s5_mem nurses numDays rq pv pref anchor x hn
    (mem_daysList.mpr ⟨hd1, hd2⟩) hc
  have hz := nat_list_sum_zero hsum0 _ hmem
  have hxa :
      x n d (SHIFT_TYPES.indexOf (anchor (nurses.getD n "") d)) = true := by
    cases hxa : x n d (SHIFT_TYPES.indexOf (anchor (nurses.getD n "") d))
    · rw [hxa] at hz; simp [b2n] at hz
    · rfl
  have hlt : SHIFT_TYPES.indexOf (anchor (nurses.getD n "") d) <
      SHIFT_TYPES.length := List.indexOf_lt_length.mpr hmemIdx
  have hone' : ((List.range SHIFT_TYPES.length).map fun s =>
      b2n (x n d s)).sum = 1 := hard_exactly_one hx hn hd1 hd2
  have huniq := b2n_sum_unique (g := fun s => x n d s) hlt hxa hone'
  have hfind : (List.range SHIFT_TYPES.length).find? (fun s => x n d s) =
      some (SHIFT_TYPES.indexOf (anchor (nurses.getD n "") d)) :=
    find?_range_unique hlt hxa huniq
  rw [finalResultCell, if_pos (Or.inl rfl), hfind]
  exact getD_indexOf_self hmemIdx

/-- C8 witness: the empty configuration with the all-rest anchor — the
hard-model, anchor-validity and optimality hypotheses are all dischargeable,
the conclusion vacuous. -/
theorem c8_witness :
    hardSatisfies (mkData [] 0 SHIFT_TYPES none [] [] (some allRestCell)) x0 =
      true ∧
    (∀ n, n < ([] : List String).length → ∀ d, 1 ≤ d → d ≤ 0 →
      finalResultCell CpStatus.optimal x0 n d =
        allRestCell (([] : List String).getD n "") d) :=
  ⟨rfl, c8_phase2_stability_idempotence [] 0 none [] [] allRestCell x0
    (fun _ => 0) (fun _ => 0) rfl
    (fun n hn => absurd hn (Nat.not_lt_zero n)) (by decide)⟩

end NurseScheduling
